import Mathlib

/-!
Verification of the RadioScript audio assembly pipeline
(`radioscript/builder.py`) against its natural-language specification.

The builder is shallowly embedded: Python floats carrying durations are
modelled as rationals (the claims are about min/comparison policy, which
is exact), external tool invocations (ffmpeg, ffprobe, sox) are modelled
by an environment record that supplies their outcomes, and the working
directory is modelled as the list of temporary files the build has
created and not yet removed.
-/

namespace Radioscript

/-- Mirrors the `AudioSegment` dataclass (builder.py lines 14-19):
a path, a type ("voice" or "music"), and an optional crossfade override. -/
structure AudioSegment where
  path : String
  type : String
  crossfade : Option ℚ := none
  deriving DecidableEq, Repr

/-- The default crossfade policy built in `Builder.__init__`
(builder.py lines 41-46). -/
def defaultCrossfades : List (String × ℚ) :=
  [("voice_to_music", 1/10), ("music_to_voice", 1/10),
   ("voice_to_voice", 1/10), ("music_to_music", 1/10)]

/-- Mirrors `Builder._get_crossfade_duration` (builder.py lines 74-85):
an override wins; otherwise look up `"{prev}_to_{next}"` in the policy,
falling back to 0.3. -/
def get_crossfade_duration (defaults : List (String × ℚ))
    (prev_type next_type : String) (override : Option ℚ) : ℚ :=
  match override with
  | some o => o
  | none =>
    let key := prev_type ++ "_to_" ++ next_type
    match defaults.lookup key with
    | some v => v
    | none => 3/10

/-- One invocation of the external audio-transform service made by a
merge step. -/
inductive ExtCall
  | silence (duration : ℚ)
  | concat (files : List String)
  | crossfade (file1 file2 : String) (duration : ℚ)
  deriving DecidableEq, Repr

/-- Modelled from the spec (§6): the external concat transform joins its
inputs verbatim, so the output duration is the sum of the input
durations. -/
def concatDuration (ds : List ℚ) : ℚ := ds.sum

/-- Modelled from the spec (§6): silence synthesis produces a file of
exactly the requested duration (sox `trim 0.0 g`, builder.py 293-297). -/
def silenceDuration (g : ℚ) : ℚ := g

/-- Modelled from the spec (§4.2): the external crossfade transform
overlaps the tail of the first input and the head of the second by
exactly the blend window. -/
def crossfadeOutDuration (d1 d2 x : ℚ) : ℚ := d1 + d2 - x

/-- The body of one merge iteration of `Builder.build`
(builder.py lines 289-337), as the list of external transform calls it
issues and the duration of the artifact it produces.  `d1` and `d2` are
the ffprobe-measured durations of `current` and of `next.path`
(lines 317-318); `counter` is the temp counter after line 287's
increment has not yet happened (the silence file name uses the
incremented counter, line 292). -/
def mergeStep (gap : Option ℚ) (defaults : List (String × ℚ)) (counter : ℕ)
    (prev_type : String) (next : AudioSegment) (current : String)
    (d1 d2 : ℚ) : List ExtCall × ℚ :=
  match gap with
  | some g =>
    let silence_file := "_silence_" ++ toString (counter + 1) ++ ".wav"
    ([ExtCall.silence g,
      ExtCall.concat [current, silence_file, next.path]],
     concatDuration [d1, silenceDuration g, d2])
  | none =>
    let desired := get_crossfade_duration defaults prev_type next.type next.crossfade
    let max_xfade := min d1 d2 * (1/2)
    let xfade := min desired max_xfade
    let xfade := if xfade < 1/20 then 0 else xfade
    if 0 < xfade then
      ([ExtCall.crossfade current next.path xfade],
       crossfadeOutDuration d1 d2 xfade)
    else
      ([ExtCall.concat [current, next.path]], concatDuration [d1, d2])

/-- The outcome of the external duration probe (ffprobe): either the
process failed (`CalledProcessError`) or it produced some stdout text. -/
inductive ProbeResult
  | err
  | out (stdout : String)
  deriving DecidableEq, Repr

/-- Digit list to number, `foldl`-style. -/
def digitsToNat (l : List Char) : ℕ :=
  l.foldl (fun acc c => acc * 10 + (c.toNat - 48)) 0

/-- Python's `str.strip()`: whitespace removed from both ends. -/
def trimChars (l : List Char) : List Char :=
  ((l.dropWhile Char.isWhitespace).reverse.dropWhile Char.isWhitespace).reverse

/-- Split at the first `.`: the part before it, and (when a dot is
present) everything after it. -/
def splitDot : List Char → List Char × Option (List Char)
  | [] => ([], none)
  | c :: rest =>
    if c = '.' then ([], some rest)
    else
      let p := splitDot rest
      (c :: p.1, p.2)

/-- A model of Python's `float(·)` on the decimal-literal fragment
(optional sign, digits, optional fractional part, surrounding
whitespace stripped); other inputs yield `none`, modelling
`ValueError`.  (Exponent and inf/nan forms are not needed by any claim
and are omitted.)  A second `.` lands in the fractional part and fails
the all-digits test, as in Python. -/
def parseFloat? (s : String) : Option ℚ :=
  let l := trimChars s.toList
  let sb : ℚ × List Char :=
    match l with
    | c :: rest =>
      if c = '-' then (-1, rest)
      else if c = '+' then (1, rest)
      else (1, c :: rest)
    | [] => (1, [])
  match splitDot sb.2 with
  | (intPart, none) =>
    if intPart ≠ [] ∧ intPart.all Char.isDigit then
      some (sb.1 * digitsToNat intPart)
    else none
  | (intPart, some fracPart) =>
    if (intPart ≠ [] ∨ fracPart ≠ []) ∧ intPart.all Char.isDigit
        ∧ fracPart.all Char.isDigit then
      some (sb.1 * ((digitsToNat intPart : ℚ)
        + (digitsToNat fracPart : ℚ) / (10 ^ fracPart.length)))
    else none

/-- Mirrors `Builder.get_duration` (builder.py lines 59-72): on a probe
error return 0.0; otherwise `float(stdout.strip())`, with an unparsable
value (`ValueError`) also yielding 0.0. -/
def get_duration (r : ProbeResult) : ℚ :=
  match r with
  | ProbeResult.err => 0
  | ProbeResult.out s =>
    match parseFloat? s with
    | some v => v
    | none => 0

/-- The character `{` (written via its code point). -/
def lbrace : Char := Char.ofNat 123

/-- The character `}` (written via its code point). -/
def rbrace : Char := Char.ofNat 125

/-- Index of the last occurrence of `c` in `l`, Python `str.rfind`
style (`none` when `rfind` returns -1). -/
def rfindIdx : List Char → Char → Option ℕ
  | [], _ => none
  | x :: xs, c =>
    match rfindIdx xs c with
    | some i => some (i + 1)
    | none => if x = c then some 0 else none

/-- Mirrors the report extraction of `Builder._normalize`
(builder.py lines 158-168): `json_start = stderr.rfind(lbrace)`,
`json_end = stderr.rfind(rbrace) + 1`, and the slice
`stderr[json_start:json_end]` is taken when `json_start >= 0` and
`json_end > json_start`. -/
def extractReport (stderr : List Char) : Option (List Char) :=
  match rfindIdx stderr lbrace, rfindIdx stderr rbrace with
  | some js, some je =>
    if js ≤ je then some ((stderr.drop js).take (je + 1 - js)) else none
  | _, _ => none

/-- Index of the first occurrence of `c` in `l` (Python `str.find`). -/
def firstIdxOf : List Char → Char → Option ℕ
  | [], _ => none
  | x :: xs, c =>
    if x = c then some 0
    else
      match firstIdxOf xs c with
      | some i => some (i + 1)
      | none => none

/-- The report extraction as the SPEC words it (§4.3): "a maximal
substring delimited by the first `{` and the last `}`".  Kept separate
from `extractReport` (the code's behavior) so the two can be compared. -/
def extractReportSpecFirst (stderr : List Char) : Option (List Char) :=
  match firstIdxOf stderr lbrace, rfindIdx stderr rbrace with
  | some js, some je =>
    if js ≤ je then some ((stderr.drop js).take (je + 1 - js)) else none
  | _, _ => none

/-- Which normalization mode `Builder._normalize` ends up in. -/
inductive NormMode
  | twoPass
  | singlePass
  deriving DecidableEq, Repr

/-- Mirrors the control flow of `Builder._normalize`
(builder.py lines 151-172): if no report can be sliced out of the
analyze pass's stderr, or `json.loads` on the slice raises, fall back to
`_normalize_single_pass`; otherwise run the second (correction) pass.
`jsonOk` is the environment's verdict on whether `json.loads` succeeds
on the extracted slice (the JSON parser itself is a black box here). -/
def normalizeMode (stderr : List Char) (jsonOk : Bool) : NormMode :=
  match extractReport stderr with
  | some _ => if jsonOk then NormMode.twoPass else NormMode.singlePass
  | none => NormMode.singlePass

/-- The arguments handed to the external loudnorm transform: the target
level, and—only in two-pass mode—the five measured statistics. -/
structure LoudnormArgs where
  target_I : ℚ
  measured : Option (String × String × String × String × String)
  deriving DecidableEq, Repr

/-- The five measured statistics pulled out of the parsed analyze
report with their string defaults (builder.py lines 176-180):
`input_i`/'-24', `input_tp`/'-2', `input_lra`/'7',
`input_thresh`/'-34', `target_offset`/'0'. -/
def measuredStats (jd : String → Option String) :
    String × String × String × String × String :=
  ((jd "input_i").getD "-24", (jd "input_tp").getD "-2",
   (jd "input_lra").getD "7", (jd "input_thresh").getD "-34",
   (jd "target_offset").getD "0")

/-- The loudnorm invocation each mode issues: the correction pass
(builder.py lines 182-192) passes the measured statistics; the
single-pass command (lines 203-209) passes only the target level. -/
def normalizeArgs (mode : NormMode) (target : ℚ)
    (jd : String → Option String) : LoudnormArgs :=
  match mode with
  | NormMode.twoPass => ⟨target, some (measuredStats jd)⟩
  | NormMode.singlePass => ⟨target, none⟩

/-- A file the build touches inside its output directory, identified
structurally.  Caller-supplied segment paths are modelled as living
outside the temp namespace (no caller file is named `_temp_*` or
`_silence_*` inside the output directory). -/
inductive FileId
  | source (path : String)
  | tempMerge (k : ℕ)
  | tempSingle
  | tempNormalized
  | silence (k : ℕ)
  deriving DecidableEq, Repr

/-- The `current_file.startswith(str(self.output_dir / "_temp"))` test
of builder.py line 344. -/
def FileId.startsTempName : FileId → Bool
  | FileId.tempMerge _ => true
  | FileId.tempSingle => true
  | FileId.tempNormalized => true
  | _ => false

/-- Whether the file matches the final cleanup glob
`_temp_*.wav` (builder.py line 378). -/
def FileId.matchesTempGlob : FileId → Bool
  | FileId.tempMerge _ => true
  | FileId.tempSingle => true
  | FileId.tempNormalized => true
  | _ => false

/-- `Path(f).unlink(missing_ok=True)` on the modelled directory. -/
def removeFile (temps : List FileId) (f : FileId) : List FileId :=
  temps.filter (fun g => g ≠ f)

/-- Outcomes of all external processes a build may spawn, plus which
caller files exist.  `mergeOk i` is the success of the ffmpeg merge
(crossfade or concat) at loop index `i`; `exportPartialFile` says
whether a FAILED mp3 encode leaves a partial file at the output path
(the encode tool is a black box; the code never removes that path). -/
structure BuildEnv where
  fileExists : String → Bool
  mergeOk : ℕ → Bool
  silenceOk : ℕ → Bool
  singleConvertOk : Bool
  analyzeStderr : List Char
  jsonOk : Bool
  correctionOk : Bool
  singlePassOk : Bool
  normPartialFile : Bool
  exportOk : Bool
  exportPartialFile : Bool
  convertLeavesFile : Bool

/-- Builder configuration relevant to the claims: the `gap` switch and
the crossfade policy (builder.py lines 39-46). -/
structure BuilderConfig where
  gap : Option ℚ
  crossfade_defaults : List (String × ℚ)
  deriving Repr

/-- The merge loop of `Builder.build` (builder.py lines 279-350), as
file bookkeeping: per iteration, in gap mode a silence file is created
(if sox succeeds) and removed again after the concat; on merge success
the new temp artifact is recorded and the previous one unlinked when it
is itself a temp (lines 343-345); on merge failure the function RETURNS
IMMEDIATELY (lines 339-341) with whatever temps exist at that point.
(The `_concat_list.txt` helper is created and removed again inside
`_concat_simple`'s finally block on every path, so it is omitted.) -/
def mergeChain (env : BuildEnv) (cfg : BuilderConfig) :
    List AudioSegment → ℕ → ℕ → FileId → List FileId →
    Option FileId × List FileId
  | [], _, _, current, temps => (some current, temps)
  | _ :: rest, i, counter, current, temps =>
    let temp_output := FileId.tempMerge counter
    let counter := counter + 1
    let ok := env.mergeOk i
    let temps :=
      match cfg.gap with
      | some _ =>
        let sil := FileId.silence counter
        let temps := if env.silenceOk i then sil :: temps else temps
        let temps := if ok then temp_output :: temps else temps
        removeFile temps sil
      | none =>
        if ok then temp_output :: temps else temps
    if ok then
      let temps :=
        if current.startsTempName then removeFile temps current else temps
      mergeChain env cfg rest (i + 1) counter temp_output temps
    else
      (none, temps)

/-- The result of `Builder._normalize` as seen by `build`
(builder.py line 356): correction-pass success in two-pass mode,
single-pass success otherwise. -/
def normalizeResult (env : BuildEnv) : Bool :=
  match normalizeMode env.analyzeStderr env.jsonOk with
  | NormMode.twoPass => env.correctionOk
  | NormMode.singlePass => env.singlePassOk

/-- The normalization block of `Builder.build` (lines 352-361): on
success the merged temp is unlinked and replaced by
`_temp_normalized.wav`; on failure the merged file is kept (and a
partial normalized file may remain on disk, swept later by the glob). -/
def normalizeStage (env : BuildEnv) (doNorm : Bool) (merged : FileId)
    (temps : List FileId) : FileId × List FileId :=
  if doNorm then
    if normalizeResult env then
      let temps := FileId.tempNormalized :: temps
      let temps :=
        if merged = FileId.tempNormalized then temps
        else removeFile temps merged
      (FileId.tempNormalized, temps)
    else
      (merged,
       if env.normPartialFile then FileId.tempNormalized :: temps else temps)
  else (merged, temps)

/-- `output_filename.endswith(".mp3")` (builder.py line 367), done at
character level. -/
def isMp3Name (s : String) : Bool :=
  List.isSuffixOf ".mp3".toList s.toList

/-- The export block of `Builder.build` (lines 363-374), returning
(success, a file exists at the output path).  For `.mp3` targets a
failed encode leaves a file iff the black-box tool does
(`exportPartialFile`); for other targets success is DEFINED as the
output path existing (line 374). -/
def exportStage (env : BuildEnv) (output_filename : String) : Bool × Bool :=
  if isMp3Name output_filename then
    (env.exportOk, env.exportOk || env.exportPartialFile)
  else
    (env.convertLeavesFile, env.convertLeavesFile)

/-- The final cleanup of `Builder.build` (lines 376-379): unlink the
merged file, then remove everything matching `_temp_*.wav`. -/
def cleanupStage (merged : FileId) (temps : List FileId) : List FileId :=
  (removeFile temps merged).filter (fun f => !f.matchesTempGlob)

/-- What one call to `Builder.build` leaves behind: its return value,
the temp files still present in the output directory, whether a file
sits at the requested output path, and which file was handed to the
export step (the track that got encoded). -/
structure BuildOutcome where
  result : Option String
  temps : List FileId
  outputExists : Bool
  exportedInput : Option FileId
  deriving DecidableEq, Repr

/-- The input validation of `Builder.build` (lines 252-260): a nonempty
segment list whose backing files all exist. -/
def validateSegments (env : BuildEnv) (segments : List AudioSegment) : Bool :=
  !segments.isEmpty && segments.all (fun s => env.fileExists s.path)

/-- The merge phase of `Builder.build`: a single segment is converted
to `_temp_single.wav` (line 266; the conversion's exit status is never
checked and the temp name is used regardless), two or more segments go
through the merge loop. -/
def mergeOrSingle (env : BuildEnv) (cfg : BuilderConfig) :
    List AudioSegment → Option FileId × List FileId
  | [] => (none, [])
  | [_] =>
    (some FileId.tempSingle,
     if env.singleConvertOk then [FileId.tempSingle] else [])
  | s0 :: rest => mergeChain env cfg rest 1 0 (FileId.source s0.path) []

/-- `Builder.build` (builder.py lines 235-388): validate, merge the
chain, normalize (non-fatally), export, clean up, and return the
output path on success.  A merge failure returns IMMEDIATELY, before
any cleanup (lines 339-341). -/
def build (env : BuildEnv) (cfg : BuilderConfig)
    (segments : List AudioSegment) (output_filename : String)
    (doNorm : Bool) : BuildOutcome :=
  if validateSegments env segments then
    match mergeOrSingle env cfg segments with
    | (none, temps) => ⟨none, temps, false, none⟩
    | (some merged, temps) =>
      let mt := normalizeStage env doNorm merged temps
      let se := exportStage env output_filename
      let temps := cleanupStage mt.1 mt.2
      ⟨if se.1 then some output_filename else none, temps, se.2, some mt.1⟩
  else ⟨none, [], false, none⟩

/-- Concrete analyze-pass output containing two embedded reports. -/
def exStderr : List Char :=
  ['x', lbrace, 'a', rbrace, 'y', lbrace, 'b', rbrace, 'z']

/-- An environment in which every external tool behaves: all files
exist, every merge and conversion succeeds, the analyze output is
empty, export succeeds and leaves no stray file. -/
def baseEnv : BuildEnv where
  fileExists := fun _ => true
  mergeOk := fun _ => true
  silenceOk := fun _ => true
  singleConvertOk := true
  analyzeStderr := []
  jsonOk := true
  correctionOk := true
  singlePassOk := true
  normPartialFile := false
  exportOk := true
  exportPartialFile := false
  convertLeavesFile := true

/-- Crossfade-mode configuration with the built-in policy. -/
def xfadeConfig : BuilderConfig := ⟨none, defaultCrossfades⟩

/-- Two caller-supplied segments. -/
def twoSegments : List AudioSegment :=
  [⟨"a.wav", "voice", none⟩, ⟨"b.wav", "music", none⟩]

/-- Three caller-supplied segments. -/
def threeSegments : List AudioSegment :=
  [⟨"a.wav", "voice", none⟩, ⟨"b.wav", "music", none⟩,
   ⟨"c.wav", "voice", none⟩]

/-- All tools behave except the second merge (loop index 2), which
fails. -/
def failMidEnv : BuildEnv := { baseEnv with mergeOk := fun i => i == 1 }

/-- Environment whose analyze output is the two-character report, with
a failing correction pass. -/
def correctionFailEnv : BuildEnv :=
  { baseEnv with analyzeStderr := [lbrace, rbrace], correctionOk := false }

/-- Environment for C7: analyze output and JSON verdict are
parameters; correction would fail if it ever ran; single-pass and all
other tools succeed. -/
def c7Env (s : List Char) (j : Bool) : BuildEnv :=
  { baseEnv with analyzeStderr := s, jsonOk := j, correctionOk := false }

/-- All tools behave except the final mp3 encode, which fails leaving a
partial file at the output path. -/
def exportFailPartialEnv : BuildEnv :=
  { baseEnv with exportOk := false, exportPartialFile := true }

/-- All tools behave except the final mp3 encode, which fails cleanly
(no partial file). -/
def exportFailCleanEnv : BuildEnv := { baseEnv with exportOk := false }

/-! ## Helper lemmas -/

/-- Unlinking only removes: membership in the rest is preserved. -/
theorem mem_removeFile {temps : List FileId} {f g : FileId}
    (h : g ∈ removeFile temps f) : g ∈ temps ∧ g ≠ f := by
  have hm := List.mem_filter.mp h
  exact ⟨hm.1, of_decide_eq_true hm.2⟩

/-- When every merge succeeds, the merge loop returns a merged file and
every temp file still on disk matches the final cleanup glob. -/
theorem mergeChain_glob (env : BuildEnv) (cfg : BuilderConfig)
    (hm : ∀ i, env.mergeOk i = true) (rest : List AudioSegment) :
    ∀ (i counter : ℕ) (current : FileId) (temps : List FileId),
      (∀ f ∈ temps, f.matchesTempGlob = true) →
      ∃ cur' temps',
        mergeChain env cfg rest i counter current temps = (some cur', temps') ∧
        ∀ f ∈ temps', f.matchesTempGlob = true := by
  induction rest with
  | nil =>
    intro i counter current temps h
    exact ⟨current, temps, rfl, h⟩
  | cons next rest ih =>
    intro i counter current temps h
    simp only [mergeChain, hm i, if_true]
    rcases hgap : cfg.gap with _ | g <;> dsimp only
    · -- crossfade mode: temps gains the new temp artifact
      have h1 : ∀ f ∈ FileId.tempMerge counter :: temps,
          f.matchesTempGlob = true := by
        intro f hf
        rcases List.mem_cons.mp hf with rfl | hf
        · rfl
        · exact h f hf
      by_cases hcur : current.startsTempName
      · simp only [hcur, if_true]
        exact ih (i + 1) (counter + 1) (FileId.tempMerge counter) _
          (fun f hf => h1 f (mem_removeFile hf).1)
      · simp only [hcur, if_false, Bool.false_eq_true]
        exact ih (i + 1) (counter + 1) (FileId.tempMerge counter) _ h1
    · -- gap mode: the silence file is added and removed again
      have h1 : ∀ f ∈ removeFile
          (FileId.tempMerge counter ::
            (if env.silenceOk i then FileId.silence (counter + 1) :: temps
             else temps))
          (FileId.silence (counter + 1)),
          f.matchesTempGlob = true := by
        intro f hf
        obtain ⟨hf, hne⟩ := mem_removeFile hf
        rcases List.mem_cons.mp hf with rfl | hf
        · rfl
        · by_cases hs : env.silenceOk i
          · rw [if_pos hs] at hf
            rcases List.mem_cons.mp hf with rfl | hf
            · exact absurd rfl hne
            · exact h f hf
          · rw [if_neg hs] at hf
            exact h f hf
      by_cases hcur : current.startsTempName
      · simp only [hcur, if_true]
        exact ih (i + 1) (counter + 1) (FileId.tempMerge counter) _
          (fun f hf => h1 f (mem_removeFile hf).1)
      · simp only [hcur, if_false, Bool.false_eq_true]
        exact ih (i + 1) (counter + 1) (FileId.tempMerge counter) _ h1

/-- The normalization block only ever adds `_temp_normalized.wav`,
which matches the cleanup glob. -/
theorem normalizeStage_glob (env : BuildEnv) (doNorm : Bool)
    (merged : FileId) (temps : List FileId)
    (h : ∀ f ∈ temps, f.matchesTempGlob = true) :
    ∀ f ∈ (normalizeStage env doNorm merged temps).2,
      f.matchesTempGlob = true := by
  intro f hf
  unfold normalizeStage at hf
  split_ifs at hf
  all_goals
    first
    | exact h f hf
    | {rcases List.mem_cons.mp hf with rfl | hf2
       · rfl
       · exact h f hf2}
    | {obtain ⟨hf1, -⟩ := mem_removeFile hf
       rcases List.mem_cons.mp hf1 with rfl | hf2
       · rfl
       · exact h f hf2}

/-- The final sweep removes everything when every remaining temp file
matches the glob. -/
theorem cleanupStage_eq_nil {merged : FileId} {temps : List FileId}
    (h : ∀ f ∈ temps, f.matchesTempGlob = true) :
    cleanupStage merged temps = [] := by
  unfold cleanupStage
  apply List.filter_eq_nil_iff.mpr
  intro f hf
  simp [h f (mem_removeFile hf).1]

/-- A stray partial `_temp_normalized.wav` makes no difference to the
final sweep. -/
theorem cleanupStage_cons_tempNormalized (merged : FileId)
    (temps : List FileId) :
    cleanupStage merged (FileId.tempNormalized :: temps) =
      cleanupStage merged temps := by
  unfold cleanupStage removeFile
  by_cases h : FileId.tempNormalized = merged
  · simp [List.filter_cons, h]
  · simp [List.filter_cons, h, FileId.matchesTempGlob]

/-- Characterization of a crossfade-mode merge step: writing `eff` for
the clamped crossfade `min desired (min d1 d2 * 0.5)`, the step is a
plain concat when `eff < 0.05` and a crossfade by `eff` otherwise. -/
theorem mergeStep_none_eq (defaults : List (String × ℚ)) (counter : ℕ)
    (prev_type : String) (next : AudioSegment) (current : String)
    (d1 d2 : ℚ) :
    mergeStep none defaults counter prev_type next current d1 d2 =
      if min (get_crossfade_duration defaults prev_type next.type next.crossfade)
          (min d1 d2 * (1/2)) < 1/20 then
        ([ExtCall.concat [current, next.path]], concatDuration [d1, d2])
      else
        ([ExtCall.crossfade current next.path
            (min (get_crossfade_duration defaults prev_type next.type next.crossfade)
              (min d1 d2 * (1/2)))],
         crossfadeOutDuration d1 d2
           (min (get_crossfade_duration defaults prev_type next.type next.crossfade)
             (min d1 d2 * (1/2)))) := by
  simp only [mergeStep]
  by_cases h : min (get_crossfade_duration defaults prev_type next.type next.crossfade)
      (min d1 d2 * (1/2)) < 1/20
  · rw [if_pos h, if_pos h]
    rw [if_neg (lt_irrefl (0 : ℚ))]
  · have hpos : (0 : ℚ) <
        min (get_crossfade_duration defaults prev_type next.type next.crossfade)
          (min d1 d2 * (1/2)) :=
      lt_of_lt_of_le (by norm_num) (le_of_not_lt h)
    rw [if_neg h, if_neg h, if_pos hpos]

/-! ## Claims -/

/-- C1.  In crossfade mode, whenever a merge step invokes the external
crossfade transform with blend duration `e`, that effective duration
equals `min(desired, 0.5 * min(d1, d2))` — `desired` being the resolved
crossfade — and in particular never exceeds `0.5 * min(d1, d2)`. -/
theorem c1_effective_crossfade_clamped (defaults : List (String × ℚ))
    (counter : ℕ) (prev_type : String) (next : AudioSegment)
    (current f1 f2 : String) (d1 d2 e : ℚ)
    (h : ExtCall.crossfade f1 f2 e ∈
      (mergeStep none defaults counter prev_type next current d1 d2).1) :
    e = min (get_crossfade_duration defaults prev_type next.type next.crossfade)
        (min d1 d2 * (1/2)) ∧
    e ≤ min d1 d2 * (1/2) := by
  rw [mergeStep_none_eq] at h
  by_cases hc : min (get_crossfade_duration defaults prev_type next.type next.crossfade)
      (min d1 d2 * (1/2)) < 1/20
  · rw [if_pos hc] at h
    simp only [List.mem_singleton] at h
    exact ExtCall.noConfusion h
  · rw [if_neg hc] at h
    simp only [List.mem_singleton] at h
    injection h with h1 h2 h3
    exact ⟨h3, h3 ▸ min_le_right _ _⟩

/-- C1 witness: a concrete crossfade step (override 1.0, durations 3
and 2) where the blend used is `min 1 (0.5 * min 3 2) = 1 ≤ 1`. -/
theorem c1_effective_crossfade_clamped_witness :
    ExtCall.crossfade "a.wav" "b.wav" 1 ∈
      (mergeStep none defaultCrossfades 0 "voice"
        ⟨"b.wav", "music", some 1⟩ "a.wav" 3 2).1 ∧
    (1 : ℚ) = min (get_crossfade_duration defaultCrossfades "voice" "music" (some 1))
        (min (3 : ℚ) 2 * (1/2)) ∧
    (1 : ℚ) ≤ min (3 : ℚ) 2 * (1/2) := by
  have hcalls : (mergeStep none defaultCrossfades 0 "voice"
      ⟨"b.wav", "music", some 1⟩ "a.wav" 3 2).1 =
      [ExtCall.crossfade "a.wav" "b.wav" 1] := by
    rw [mergeStep_none_eq]
    norm_num [get_crossfade_duration, min_def]
  have hmem : ExtCall.crossfade "a.wav" "b.wav" 1 ∈
      (mergeStep none defaultCrossfades 0 "voice"
        ⟨"b.wav", "music", some 1⟩ "a.wav" 3 2).1 := by
    rw [hcalls]; exact List.mem_singleton_self _
  have h := c1_effective_crossfade_clamped defaultCrossfades 0 "voice"
    ⟨"b.wav", "music", some 1⟩ "a.wav" "a.wav" "b.wav" 3 2 1 hmem
  exact ⟨hmem, h.1, h.2⟩

/-- C2.  The crossfade resolver returns the override unchanged whenever
one is given (even zero), else the configured default for the ordered
kind-pair when present, else the fixed 0.3s fallback. -/
theorem c2_resolver_policy (defaults : List (String × ℚ))
    (prev_type next_type : String) :
    (∀ o : ℚ, get_crossfade_duration defaults prev_type next_type (some o) = o) ∧
    (∀ v : ℚ, defaults.lookup (prev_type ++ "_to_" ++ next_type) = some v →
      get_crossfade_duration defaults prev_type next_type none = v) ∧
    (defaults.lookup (prev_type ++ "_to_" ++ next_type) = none →
      get_crossfade_duration defaults prev_type next_type none = 3/10) := by
  refine ⟨fun o => rfl, fun v hv => ?_, fun hn => ?_⟩
  · simp [get_crossfade_duration, hv]
  · simp [get_crossfade_duration, hn]

/-- C2 witness: with the built-in policy, a zero override wins; the
pair voice→music resolves to its configured 0.1; the unknown pair
x→y resolves to the 0.3 fallback. -/
theorem c2_resolver_policy_witness :
    get_crossfade_duration defaultCrossfades "voice" "music" (some 0) = 0 ∧
    defaultCrossfades.lookup ("voice" ++ "_to_" ++ "music") = some (1/10) ∧
    get_crossfade_duration defaultCrossfades "voice" "music" none = 1/10 ∧
    defaultCrossfades.lookup ("x" ++ "_to_" ++ "y") = none ∧
    get_crossfade_duration defaultCrossfades "x" "y" none = 3/10 := by
  refine ⟨(c2_resolver_policy defaultCrossfades "voice" "music").1 0,
    rfl, (c2_resolver_policy defaultCrossfades "voice" "music").2.1
      (1/10) rfl,
    rfl, (c2_resolver_policy defaultCrossfades "x" "y").2.2 rfl⟩

/-- C3.  A crossfade-mode merge step with clamped duration below 0.05s
treats it as zero and performs a plain concat of the two files (output
duration `d1 + d2`, no blend); otherwise it invokes the crossfade
transform with exactly the clamped duration as the blend window. -/
theorem c3_short_crossfade_floor (defaults : List (String × ℚ))
    (counter : ℕ) (prev_type : String) (next : AudioSegment)
    (current : String) (d1 d2 : ℚ) :
    mergeStep none defaults counter prev_type next current d1 d2 =
      if min (get_crossfade_duration defaults prev_type next.type next.crossfade)
          (min d1 d2 * (1/2)) < 1/20 then
        ([ExtCall.concat [current, next.path]], concatDuration [d1, d2])
      else
        ([ExtCall.crossfade current next.path
            (min (get_crossfade_duration defaults prev_type next.type next.crossfade)
              (min d1 d2 * (1/2)))],
         crossfadeOutDuration d1 d2
           (min (get_crossfade_duration defaults prev_type next.type next.crossfade)
             (min d1 d2 * (1/2)))) :=
  mergeStep_none_eq defaults counter prev_type next current d1 d2

/-- C8.  With a fixed silence gap configured, a merge step synthesizes a
silence artifact of exactly the configured duration and concatenates
current + silence + next with no blending, yielding duration
`d1 + g + d2` — independent of the segment kinds and of any crossfade
override (they are universally quantified and absent on the right). -/
theorem c8_silence_gap_step (g : ℚ) (defaults : List (String × ℚ))
    (counter : ℕ) (prev_type : String) (next : AudioSegment)
    (current : String) (d1 d2 : ℚ) :
    mergeStep (some g) defaults counter prev_type next current d1 d2 =
      ([ExtCall.silence g,
        ExtCall.concat [current, "_silence_" ++ toString (counter + 1) ++ ".wav",
          next.path]],
       d1 + g + d2) := by
  simp [mergeStep, concatDuration, silenceDuration]
  ring

/-- C10.  The duration probe returns 0 on a tool error and on
unparsable output; consequently a crossfade-mode merge step in which
either measured duration is 0 never calls the crossfade transform and
degrades to plain concatenation. -/
theorem c10_zero_duration_degrades :
    get_duration ProbeResult.err = 0 ∧
    (∀ s : String, parseFloat? s = none →
      get_duration (ProbeResult.out s) = 0) ∧
    (∀ (defaults : List (String × ℚ)) (counter : ℕ) (prev_type : String)
      (next : AudioSegment) (current : String) (d1 d2 : ℚ),
      d1 = 0 ∨ d2 = 0 →
      mergeStep none defaults counter prev_type next current d1 d2 =
        ([ExtCall.concat [current, next.path]], concatDuration [d1, d2])) := by
  refine ⟨rfl, fun s hs => by simp [get_duration, hs], ?_⟩
  intro defaults counter prev_type next current d1 d2 h0
  have hmin : min d1 d2 ≤ 0 := by
    rcases h0 with h | h
    · exact h ▸ min_le_left d1 d2
    · exact h ▸ min_le_right d1 d2
  have hm2 : min d1 d2 * (1/2) ≤ 0 := by nlinarith
  have hlt : min (get_crossfade_duration defaults prev_type next.type next.crossfade)
      (min d1 d2 * (1/2)) < 1/20 :=
    lt_of_le_of_lt (le_trans (min_le_right _ _) hm2) (by norm_num)
  rw [mergeStep_none_eq, if_pos hlt]

/-- C10 witness: ffprobe output "abc" is unparsable and measures as 0,
and a step whose first file measures 0 (second 2s) concatenates. -/
theorem c10_zero_duration_degrades_witness :
    parseFloat? "abc" = none ∧
    get_duration (ProbeResult.out "abc") = 0 ∧
    mergeStep none defaultCrossfades 0 "voice" ⟨"b.wav", "music", none⟩
        "a.wav" 0 2 =
      ([ExtCall.concat ["a.wav", "b.wav"]], concatDuration [0, 2]) := by
  refine ⟨rfl, c10_zero_duration_degrades.2.1 "abc" rfl,
    c10_zero_duration_degrades.2.2 defaultCrossfades 0 "voice"
      ⟨"b.wav", "music", none⟩ "a.wav" 0 2 (Or.inl rfl)⟩

/-- `rfind` misses characters that do not occur. -/
theorem rfindIdx_eq_none {c : Char} : ∀ {l : List Char}, c ∉ l → rfindIdx l c = none
  | [], _ => rfl
  | x :: xs, h => by
    have hx : ¬ x = c := fun he => h (he ▸ List.mem_cons_self x xs)
    have hxs : c ∉ xs := fun hm => h (List.mem_cons_of_mem x hm)
    simp [rfindIdx, rfindIdx_eq_none hxs, hx]

/-- `rfind` over an append prefers the right-hand part. -/
theorem rfindIdx_append (l r : List Char) (c : Char) :
    rfindIdx (l ++ r) c =
      match rfindIdx r c with
      | some i => some (l.length + i)
      | none => rfindIdx l c := by
  induction l with
  | nil =>
    cases hr : rfindIdx r c <;> simp [hr, rfindIdx]
  | cons x xs ih =>
    show (match rfindIdx (xs ++ r) c with
      | some i => some (i + 1)
      | none => if x = c then some 0 else none) = _
    rw [ih]
    cases hr : rfindIdx r c with
    | some i =>
      show some (xs.length + i + 1) = some ((x :: xs).length + i)
      simp [List.length_cons]
      omega
    | none =>
      rfl

/-- C5 counterexample: on output `x{a}y{b}z` the code slices from the
LAST `{` (rfind, builder.py line 161) and yields `{b}`, while the
claim's "first `{` to last `}`" rule would yield `{a}y{b}`. -/
theorem c5_counterexample :
    extractReport exStderr = some [lbrace, 'b', rbrace] ∧
    extractReportSpecFirst exStderr =
      some [lbrace, 'a', rbrace, 'y', lbrace, 'b', rbrace] ∧
    ([lbrace, 'b', rbrace] : List Char) ≠
      [lbrace, 'a', rbrace, 'y', lbrace, 'b', rbrace] := by
  refine ⟨by decide, by decide, by decide⟩

/-- C5 amended: the extracted report is the substring delimited by the
LAST `{` and the last `}` of the output: for any output of the form
`pre ++ "{" ++ mid ++ "}" ++ post` where no `{` occurs after that `{`
and no `}` occurs after that `}`, the report is `"{" ++ mid ++ "}"`. -/
theorem c5_amended (pre mid post : List Char)
    (h1 : lbrace ∉ mid) (h2 : lbrace ∉ post) (h3 : rbrace ∉ post) :
    extractReport (pre ++ lbrace :: (mid ++ rbrace :: post)) =
      some (lbrace :: (mid ++ [rbrace])) := by
  have hne : ¬ (lbrace = rbrace) := by decide
  have hX : lbrace ∉ mid ++ rbrace :: post := by
    intro hm
    rcases List.mem_append.mp hm with hm | hm
    · exact h1 hm
    · rcases List.mem_cons.mp hm with hm | hm
      · exact hne hm
      · exact h2 hm
  have hB : rfindIdx (lbrace :: (mid ++ rbrace :: post)) lbrace = some 0 := by
    show (match rfindIdx (mid ++ rbrace :: post) lbrace with
      | some i => some (i + 1)
      | none => if lbrace = lbrace then some 0 else none) = some 0
    rw [rfindIdx_eq_none hX]
    simp
  have hC : rfindIdx (pre ++ lbrace :: (mid ++ rbrace :: post)) lbrace =
      some pre.length := by
    rw [rfindIdx_append, hB]
    simp
  have hD : rfindIdx (rbrace :: post) rbrace = some 0 := by
    show (match rfindIdx post rbrace with
      | some i => some (i + 1)
      | none => if rbrace = rbrace then some 0 else none) = some 0
    rw [rfindIdx_eq_none h3]
    simp
  have hF : rfindIdx (lbrace :: (mid ++ rbrace :: post)) rbrace =
      some (mid.length + 1) := by
    show (match rfindIdx (mid ++ rbrace :: post) rbrace with
      | some i => some (i + 1)
      | none => if lbrace = rbrace then some 0 else none) = some (mid.length + 1)
    rw [rfindIdx_append, hD]
  have hG : rfindIdx (pre ++ lbrace :: (mid ++ rbrace :: post)) rbrace =
      some (pre.length + (mid.length + 1)) := by
    rw [rfindIdx_append, hF]
  unfold extractReport
  rw [hC, hG]
  have hle : pre.length ≤ pre.length + (mid.length + 1) := by omega
  simp only [hle, if_true, if_pos hle]
  have harith : pre.length + (mid.length + 1) + 1 - pre.length =
      (mid.length + 1) + 1 := by omega
  rw [harith, List.drop_left, List.take_succ_cons, List.take_append,
    List.take_succ_cons, List.take_zero]

/-- C4 counterexample: three segments, the first merge succeeds
(creating `_temp_0.wav`), the second fails.  `build` returns failure
immediately and `_temp_0.wav` is left in the working directory, so the
claimed universal cleanup does not hold. -/
theorem c4_counterexample :
    (build failMidEnv xfadeConfig threeSegments "out.mp3" true).result
        = none ∧
    (build failMidEnv xfadeConfig threeSegments "out.mp3" true).temps
        = [FileId.tempMerge 0] ∧
    (build failMidEnv xfadeConfig threeSegments "out.mp3" true).temps
        ≠ [] := by
  refine ⟨rfl, rfl, by decide⟩

/-- C4 amended: when every merge step succeeds — i.e. on every build
that reaches the normalization/export stages, whatever their outcomes —
the final sweep leaves zero temp artifacts; a merge failure, however,
returns before any cleanup (see the counterexample). -/
theorem c4_cleanup_amended (env : BuildEnv) (cfg : BuilderConfig)
    (segments : List AudioSegment) (output_filename : String)
    (doNorm : Bool) (hm : ∀ i, env.mergeOk i = true) :
    (build env cfg segments output_filename doNorm).temps = [] := by
  unfold build
  by_cases hv : validateSegments env segments
  · rw [if_pos hv]
    rcases segments with _ | ⟨s0, rest⟩
    · rfl
    · rcases rest with _ | ⟨s1, rest⟩
      · have hX : ∀ f ∈ (if env.singleConvertOk then [FileId.tempSingle]
            else ([] : List FileId)), f.matchesTempGlob = true := by
          intro f hf
          by_cases hc : env.singleConvertOk
          · rw [if_pos hc] at hf
            rcases List.mem_cons.mp hf with rfl | hf
            · rfl
            · exact absurd hf (List.not_mem_nil f)
          · rw [if_neg hc] at hf
            exact absurd hf (List.not_mem_nil f)
        simp only [mergeOrSingle]
        exact cleanupStage_eq_nil (normalizeStage_glob env doNorm _ _ hX)
      · obtain ⟨cur', temps', heq, hglob⟩ :=
          mergeChain_glob env cfg hm (s1 :: rest) 1 0
            (FileId.source s0.path) []
            (fun f hf => absurd hf (List.not_mem_nil f))
        simp only [mergeOrSingle, heq]
        exact cleanupStage_eq_nil (normalizeStage_glob env doNorm _ _ hglob)
  · rw [if_neg hv]

/-- C4 amended witness: a fully successful three-segment build leaves
no temp files. -/
theorem c4_cleanup_amended_witness :
    (build baseEnv xfadeConfig threeSegments "out.mp3" true).temps = [] :=
  c4_cleanup_amended baseEnv xfadeConfig threeSegments "out.mp3" true
    (fun _ => rfl)

/-- C6.  When the analyze pass parsed (two-pass mode) but the
correction pass fails, the build is indistinguishable from one run with
normalization disabled: the unnormalized merged track is handed to
export, and the final result, files on disk, and output are the same —
the failure is non-fatal. -/
theorem c6_correction_soft_failure (env : BuildEnv) (cfg : BuilderConfig)
    (segments : List AudioSegment) (output_filename : String)
    (hmode : normalizeMode env.analyzeStderr env.jsonOk = NormMode.twoPass)
    (hcorr : env.correctionOk = false) :
    build env cfg segments output_filename true =
      build env cfg segments output_filename false := by
  have hres : normalizeResult env = false := by
    unfold normalizeResult
    rw [hmode, hcorr]
  unfold build
  by_cases hv : validateSegments env segments
  · rw [if_pos hv, if_pos hv]
    rcases hstep : mergeOrSingle env cfg segments with ⟨o, temps⟩
    rcases o with _ | merged
    · rfl
    · dsimp only
      simp only [normalizeStage, hres, if_true, Bool.false_eq_true, if_false]
      by_cases hpf : env.normPartialFile
      · rw [if_pos hpf, cleanupStage_cons_tempNormalized]
      · rw [if_neg hpf]
  · rw [if_neg hv, if_neg hv]

/-- C6 witness: with a parsable analyze output and a failing correction
pass, the concrete two-segment build equals the normalization-disabled
build. -/
theorem c6_correction_soft_failure_witness :
    normalizeMode correctionFailEnv.analyzeStderr correctionFailEnv.jsonOk
        = NormMode.twoPass ∧
    correctionFailEnv.correctionOk = false ∧
    build correctionFailEnv xfadeConfig twoSegments "out.mp3" true =
      build correctionFailEnv xfadeConfig twoSegments "out.mp3" false :=
  ⟨rfl, rfl, c6_correction_soft_failure correctionFailEnv xfadeConfig
    twoSegments "out.mp3" rfl rfl⟩

/-- C7.  Whenever the analyze output yields no report slice, or the
slice fails JSON parsing, the normalizer is in single-pass mode, the
loudnorm invocation carries no measured statistics (only the target
level), and a build in such an environment still completes
successfully. -/
theorem c7_single_pass_fallback (s : List Char) (j : Bool) (t : ℚ)
    (jd : String → Option String)
    (h : extractReport s = none ∨ j = false) :
    normalizeMode s j = NormMode.singlePass ∧
    (normalizeArgs (normalizeMode s j) t jd).measured = none ∧
    (build (c7Env s j) xfadeConfig twoSegments "out.mp3" true).result =
      some "out.mp3" := by
  have h1 : normalizeMode s j = NormMode.singlePass := by
    unfold normalizeMode
    rcases he : extractReport s with _ | r
    · rfl
    · rcases h with h | h
      · rw [he] at h
        exact absurd h (by simp)
      · rw [h]
        rfl
  refine ⟨h1, by rw [h1]; rfl, ?_⟩
  unfold build
  rw [if_pos (show validateSegments (c7Env s j) twoSegments = true from rfl)]
  rw [show mergeOrSingle (c7Env s j) xfadeConfig twoSegments =
      (some (FileId.tempMerge 0), [FileId.tempMerge 0]) from rfl]
  dsimp only
  rw [show (exportStage (c7Env s j) "out.mp3").1 = true from rfl]
  rfl

/-- C7 witness: an empty analyze output has no report; the fallback
build completes. -/
theorem c7_single_pass_fallback_witness :
    normalizeMode [] true = NormMode.singlePass ∧
    (normalizeArgs (normalizeMode [] true) (-16) (fun _ => none)).measured
        = none ∧
    (build (c7Env [] true) xfadeConfig twoSegments "out.mp3" true).result =
      some "out.mp3" :=
  c7_single_pass_fallback [] true (-16) (fun _ => none) (Or.inl rfl)

/-- C9 counterexample: a failing mp3 export whose encoder leaves a
partial file.  The build fails, yet a file remains at the requested
output path — the code never removes it (builder.py lines 363-388). -/
theorem c9_counterexample :
    (build exportFailPartialEnv xfadeConfig twoSegments "out.mp3" true).result
        = none ∧
    (build exportFailPartialEnv xfadeConfig twoSegments "out.mp3" true).outputExists
        = true :=
  ⟨rfl, rfl⟩

/-- C9 amended: a failed build leaves no file at the output path
PROVIDED the encode tool itself leaves none behind on failure; the
builder performs no removal of its own.  (Failures before export always
leave none.) -/
theorem c9_no_partial_output_amended (env : BuildEnv) (cfg : BuilderConfig)
    (segments : List AudioSegment) (output_filename : String)
    (doNorm : Bool) (hp : env.exportPartialFile = false)
    (hr : (build env cfg segments output_filename doNorm).result = none) :
    (build env cfg segments output_filename doNorm).outputExists = false := by
  unfold build at hr ⊢
  by_cases hv : validateSegments env segments
  · rw [if_pos hv] at hr ⊢
    rcases hstep : mergeOrSingle env cfg segments with ⟨o, temps⟩
    rw [hstep] at hr
    rcases o with _ | merged
    · rfl
    · dsimp only at hr ⊢
      by_cases hse : (exportStage env output_filename).1 = true
      · rw [if_pos hse] at hr
        exact Option.noConfusion hr
      · unfold exportStage at hse ⊢
        by_cases hmp3 : isMp3Name output_filename = true
        · rw [if_pos hmp3] at hse ⊢
          dsimp only at hse ⊢
          simp only [Bool.not_eq_true] at hse
          rw [hse, hp]
          rfl
        · rw [if_neg hmp3] at hse ⊢
          dsimp only at hse ⊢
          simp only [Bool.not_eq_true] at hse
          exact hse
  · rw [if_neg hv] at hr ⊢

/-- C9 amended witness: a cleanly failing export leaves nothing at the
output path. -/
theorem c9_no_partial_output_amended_witness :
    (build exportFailCleanEnv xfadeConfig twoSegments "out.mp3" true).result
        = none ∧
    (build exportFailCleanEnv xfadeConfig twoSegments "out.mp3" true).outputExists
        = false :=
  ⟨rfl, c9_no_partial_output_amended exportFailCleanEnv xfadeConfig
    twoSegments "out.mp3" true rfl rfl⟩

/-- C5 amended witness: on the concrete output `x{a}y{b}z` the code
extracts exactly `{b}`, the substring from the last `{` to the
last `}`. -/
theorem c5_amended_witness :
    extractReport (['x', lbrace, 'a', rbrace, 'y'] ++
        lbrace :: (['b'] ++ rbrace :: ['z'])) =
      some (lbrace :: (['b'] ++ [rbrace])) :=
  c5_amended ['x', lbrace, 'a', rbrace, 'y'] ['b'] ['z']
    (by decide) (by decide) (by decide)

end Radioscript
